import Mathlib

/-
Shallow embedding of `evolve_text.py` (evolutionary text-evolution program).

Strings are modelled as `List Char`.  Python's module-level `memo` dict is
threaded explicitly as an association list.  Calls to the `random` module are
modelled by oracle draws: `random.random() < p` becomes a `Bool` parameter,
`random.randint(a, b)` becomes `a + draw % (b - a + 1)` (raising `ValueError`
when `b < a`, modelled as `Except.error`), and `random.choice(VALID_CHARS)`
becomes indexing `VALID_CHARS` at `draw % 27`.
-/

/-- `string.ascii_uppercase` from the Python standard library. -/
def ascii_uppercase : List Char :=
  ['A', 'B', 'C', 'D', 'E', 'F', 'G', 'H', 'I', 'J', 'K', 'L', 'M',
   'N', 'O', 'P', 'Q', 'R', 'S', 'T', 'U', 'V', 'W', 'X', 'Y', 'Z']

/-- `VALID_CHARS = string.ascii_uppercase + " "` (line 26). -/
def VALID_CHARS : List Char := ascii_uppercase ++ [' ']

/-- `random.choice(VALID_CHARS)`: the oracle draw selects an element. -/
def choiceValid (draw : Nat) : Char :=
  VALID_CHARS.get ⟨draw % VALID_CHARS.length, Nat.mod_lt _ (by decide)⟩

/-- `random.randint(0, hi)`: raises `ValueError` when `hi < 0`, otherwise
returns a value in `[0, hi]`; the oracle draw selects which. -/
def randint0 (hi : Int) (draw : Nat) : Except Unit Nat :=
  if hi < 0 then Except.error () else Except.ok (draw % (hi.toNat + 1))

/-- The module-level `memo` dict (line 105), keyed by concatenated strings. -/
abbrev Memo := List (List Char × Nat)

/-- Dict membership test / indexing: `string+goal_text in memo`. -/
def memo_lookup : Memo → List Char → Option Nat
  | [], _ => none
  | (k, v) :: rest, key => if k = key then some v else memo_lookup rest key

/-- `levenshtein_distance` (lines 107-125), fuelled to make the recursion
structural.  Faithful to the source: the memo is consulted (key
`string + goal_text`, string concatenation) before the empty-string base
cases; the three recursive calls run left to right, threading the memo; the
result is stored under the concatenated key.  The fuel only bounds recursion
depth; `levenshtein_distance` below supplies enough for full evaluation. -/
def levFuel : Nat → Memo → List Char → List Char → Nat × Memo
  | 0, m, _, _ => (0, m)
  | fuel + 1, m, s, g =>
    match memo_lookup m (s ++ g) with
    | some v => (v, m)
    | none =>
      if s = [] then (g.length, m)
      else if g = [] then (s.length, m)
      else
        let cost : Nat := if s.getLastD ' ' = g.getLastD ' ' then 0 else 1
        let r1 := levFuel fuel m s.dropLast g
        let r2 := levFuel fuel r1.2 s g.dropLast
        let r3 := levFuel fuel r2.2 s.dropLast g.dropLast
        let res := min (min (r1.1 + 1) (r2.1 + 1)) (r3.1 + cost)
        (res, (s ++ g, res) :: r3.2)

/-- One call `levenshtein_distance(string, goal_text)` with memo state `m`,
returning the result and the updated memo.  `s.length + g.length + 1` levels
of fuel always suffice, since every recursive call strictly decreases the sum
of the lengths. -/
def levenshtein_distance (m : Memo) (s g : List Char) : Nat × Memo :=
  levFuel (s.length + g.length + 1) m s g

/-- The non-memoized reference edit distance: the same recurrence as the
source with the memo removed (the spec's "non-memoized reference
implementation"). -/
def levRefFuel : Nat → List Char → List Char → Nat
  | 0, _, _ => 0
  | fuel + 1, s, g =>
    if s = [] then g.length
    else if g = [] then s.length
    else
      let cost : Nat := if s.getLastD ' ' = g.getLastD ' ' then 0 else 1
      min (min (levRefFuel fuel s.dropLast g + 1) (levRefFuel fuel s g.dropLast + 1))
        (levRefFuel fuel s.dropLast g.dropLast + cost)

/-- Reference edit distance with sufficient fuel. -/
def levenshtein_ref (s g : List Char) : Nat :=
  levRefFuel (s.length + g.length + 1) s g

/-- `mate_text` (lines 127-142).  `d1`, `d2` are the oracle draws for the two
`random.randint` calls: `start_point = randint(0, smallest_len)` and
`end_point = randint(start_point, smallest_len)`.  The four slices are taken
from the originals before the in-place truncation, exactly as in the source
(`str1[start:end]` is `(str1.drop start).take (end - start)`). -/
def mate_text (str1 str2 : List Char) (d1 d2 : Nat) : List Char × List Char :=
  let smallest_len := min str1.length str2.length
  let start_point := d1 % (smallest_len + 1)
  let end_point := start_point + d2 % (smallest_len - start_point + 1)
  let str1_swap := (str1.drop start_point).take (end_point - start_point)
  let str1_end := str1.drop end_point
  let str2_swap := (str2.drop start_point).take (end_point - start_point)
  let str2_end := str2.drop end_point
  (str1.take start_point ++ str2_swap ++ str2_end,
   str2.take start_point ++ str1_swap ++ str1_end)

/-- `message.insert(i, c)` on a Python list. -/
def insertAt (l : List Char) (i : Nat) (c : Char) : List Char :=
  l.take i ++ c :: l.drop i

/-- `del message[i]` on a Python list. -/
def deleteAt (l : List Char) (i : Nat) : List Char :=
  l.take i ++ l.drop (i + 1)

/-- The oracle draws consumed by one `mutate_text` call: for each sub-operator
the outcome of its `random.random() < prob` test, the draw for its
`random.randint` location, and (for insertion and substitution) the draw for
`random.choice(VALID_CHARS)`. -/
structure MutDraws where
  r_ins : Bool
  loc_ins : Nat
  ch_ins : Nat
  r_del : Bool
  loc_del : Nat
  r_sub : Bool
  loc_sub : Nat
  ch_sub : Nat

/-- Insertion branch of `mutate_text` (lines 156-159):
`location = random.randint(0, len(message)-1)`, then insert a random valid
character at `location`.  Faults when the genome is empty (`randint(0, -1)`
raises `ValueError`). -/
def step_ins (message : List Char) (d : MutDraws) : Except Unit (List Char) :=
  if d.r_ins then
    match randint0 ((message.length : Int) - 1) d.loc_ins with
    | Except.error e => Except.error e
    | Except.ok loc => Except.ok (insertAt message loc (choiceValid d.ch_ins))
  else Except.ok message

/-- Deletion branch of `mutate_text` (lines 161-163). -/
def step_del (message : List Char) (d : MutDraws) : Except Unit (List Char) :=
  if d.r_del then
    match randint0 ((message.length : Int) - 1) d.loc_del with
    | Except.error e => Except.error e
    | Except.ok loc => Except.ok (deleteAt message loc)
  else Except.ok message

/-- Substitution branch of `mutate_text` (lines 165-169): delete at
`location`, then insert a random valid character at the same `location`. -/
def step_sub (message : List Char) (d : MutDraws) : Except Unit (List Char) :=
  if d.r_sub then
    match randint0 ((message.length : Int) - 1) d.loc_sub with
    | Except.error e => Except.error e
    | Except.ok loc =>
        Except.ok (insertAt (deleteAt message loc) loc (choiceValid d.ch_sub))
  else Except.ok message

/-- `mutate_text` (lines 144-175): insertion, then deletion, then
substitution, each acting on the genome as modified by the prior step; a
`ValueError` from any `randint` propagates as `Except.error`. -/
def mutate_text (message : List Char) (d : MutDraws) : Except Unit (List Char) :=
  match step_ins message d with
  | Except.error e => Except.error e
  | Except.ok m1 =>
    match step_del m1 d with
    | Except.error e => Except.error e
    | Except.ok m2 => step_sub m2 d

/-- A `Message` individual: genome content plus its fitness slot
(`none` models DEAP's "fitness values not set / deleted", i.e. stale). -/
structure Message where
  content : List Char
  fitness : Option Nat

/-- Python truthiness of the `starting_string` argument: `if starting_string:`
is false both for `None` and for the empty string. -/
def truthyStr : Option (List Char) → Bool
  | none => false
  | some s => !s.isEmpty

/-- `Message.__init__` (lines 51-70).  When `starting_string` is truthy the
genome is its characters; otherwise `initial_length = randint(min_length,
max_length)` random valid characters (`len_draw` is the oracle draw for the
length, `char_draws i` the draw for the i-th `random.choice`). -/
def message_init (starting_string : Option (List Char))
    (min_length max_length : Nat) (len_draw : Nat) (char_draws : Nat → Nat) :
    List Char :=
  if truthyStr starting_string then starting_string.getD []
  else
    let initial_length := min_length + len_draw % (max_length - min_length + 1)
    (List.range initial_length).map (fun i => choiceValid (char_draws i))

/-- Modelled from the spec: the Evolution Engine's crossover step lives in
DEAP's `algorithms.eaSimple` / `varAnd` (an external library, not in this
repository's source).  Per the spec ("Fitness invalidation: both resulting
genomes' fitness must be marked stale"), after applying the registered `mate`
operator the engine deletes both children's fitness values. -/
def engine_mate (g1 g2 : Message) (d1 d2 : Nat) : Message × Message :=
  let children := mate_text g1.content g2.content d1 d2
  (⟨children.1, none⟩, ⟨children.2, none⟩)

/-- The `__main__` goal-validation loop (lines 252-256): returns the first
character of the goal outside `VALID_CHARS`, if any. -/
def find_illegal : List Char → Option Char
  | [] => none
  | c :: rest => if c ∈ VALID_CHARS then find_illegal rest else some c

/-- The `__main__` boundary (lines 250-259): raise `ValueError` identifying
the first illegal character, otherwise proceed to `evolve_string`
(`Except.ok ()` marks that evolution is entered). -/
def run_main (goal : List Char) : Except Char Unit :=
  match find_illegal goal with
  | some c => Except.error c
  | none => Except.ok ()

/-- C1: After `levenshtein_distance("A", "B")` caches its result under the
concatenated key "AB", the call `levenshtein_distance("", "AB")` hits that
cache entry and returns 1, while the non-memoized reference edit distance of
"" and "AB" is 2.  The memoized function therefore does not agree with the
reference on every input pair regardless of prior cache contents: the
concatenation-keyed memo conflates ("A","B") with ("","AB"). -/
theorem levenshtein_memo_collision :
    (levenshtein_distance (levenshtein_distance [] ['A'] ['B']).2 [] ['A', 'B']).1 = 1
    ∧ levenshtein_ref [] ['A', 'B'] = 2 := by decide

/-- C5: The memoized scorer is not symmetric in every reachable cache state.
After the call `levenshtein_distance("A", "BB")` (reachable from an empty
cache), `levenshtein_distance("AB", "B")` returns 2 (cache hit on the
colliding key "ABB") while `levenshtein_distance("B", "AB")` returns 1. -/
theorem levenshtein_memo_asymmetry :
    ((levenshtein_distance (levenshtein_distance [] ['A'] ['B', 'B']).2
        ['A', 'B'] ['B']).1 = 2)
    ∧ ((levenshtein_distance (levenshtein_distance [] ['A'] ['B', 'B']).2
        ['B'] ['A', 'B']).1 = 1) := by decide

/-- C2: `mutate_text` faults on a zero-length genome instead of skipping the
sub-operator.  First conjunct: an empty genome with deletion scheduled raises
`ValueError` (`randint(0, -1)`).  Second conjunct: a length-1 genome whose
deletion fires (emptying it) and whose substitution is then scheduled also
raises, so a zero-length genome reached mid-call faults as well. -/
theorem mutate_text_empty_genome_faults :
    mutate_text [] ⟨false, 0, 0, true, 0, false, 0, 0⟩ = Except.error ()
    ∧ mutate_text ['A'] ⟨false, 0, 0, true, 0, true, 0, 0⟩ = Except.error () :=
  ⟨rfl, rfl⟩

theorem mate_text_eq (str1 str2 : List Char) (d1 d2 : Nat) :
    mate_text str1 str2 d1 d2 =
      (str1.take (d1 % (min str1.length str2.length + 1))
         ++ str2.drop (d1 % (min str1.length str2.length + 1)),
       str2.take (d1 % (min str1.length str2.length + 1))
         ++ str1.drop (d1 % (min str1.length str2.length + 1))) := by
  unfold mate_text
  have key : ∀ (l : List Char) (s k : Nat),
      (l.drop s).take (s + k - s) ++ l.drop (s + k) = l.drop s := by
    intro l s k
    have h1 : s + k - s = k := by omega
    have h2 : l.drop (s + k) = (l.drop s).drop k := by
      rw [List.drop_drop, Nat.add_comm]
    rw [h1, h2, List.take_append_drop]
  simp only [List.append_assoc, key]

/-- C3: For every pair of genomes and every `start ≤ end ≤ min(len(g1),
len(g2))`, calling `mate_text` with draws that realize those crossover points
(`d1 = start`, `d2 = end - start`) leaves the first genome equal to `g1`'s
original prefix `[0:start]` followed by `g2`'s original content from `start`
onward, and the second equal to `g2`'s prefix `[0:start]` followed by `g1`'s
content from `start` onward. -/
theorem mate_text_exchanges_tails (g1 g2 : List Char) (s e : Nat)
    (h1 : s ≤ e) (h2 : e ≤ min g1.length g2.length) :
    mate_text g1 g2 s (e - s) =
      (g1.take s ++ g2.drop s, g2.take s ++ g1.drop s) := by
  have hs : s % (min g1.length g2.length + 1) = s := Nat.mod_eq_of_lt (by omega)
  rw [mate_text_eq, hs]

/-- Witness for C3 at `g1 = "AB"`, `g2 = "CD"`, `start = 1`, `end = 2`. -/
theorem mate_text_exchanges_tails_witness :
    mate_text ['A', 'B'] ['C', 'D'] 1 (2 - 1) =
      (List.take 1 ['A', 'B'] ++ List.drop 1 ['C', 'D'],
       List.take 1 ['C', 'D'] ++ List.drop 1 ['A', 'B']) :=
  mate_text_exchanges_tails ['A', 'B'] ['C', 'D'] 1 2 (by decide) (by decide)

/-- C9: `mate_text` conserves symbols exactly for genomes of any lengths: the
combined multiset of symbols across the two outputs equals the combined
multiset across the two inputs, and the sum of the two lengths is
unchanged. -/
theorem mate_text_conserves_symbols (g1 g2 : List Char) (d1 d2 : Nat) :
    (((mate_text g1 g2 d1 d2).1 ++ (mate_text g1 g2 d1 d2).2 : List Char) :
        Multiset Char) = ((g1 ++ g2 : List Char) : Multiset Char)
    ∧ (mate_text g1 g2 d1 d2).1.length + (mate_text g1 g2 d1 d2).2.length
        = g1.length + g2.length := by
  rw [mate_text_eq]
  constructor
  · simp only [← Multiset.coe_add]
    have e1 : ((g1 : Multiset Char)) =
        ((g1.take (d1 % (min g1.length g2.length + 1)) : List Char) : Multiset Char)
          + ((g1.drop (d1 % (min g1.length g2.length + 1)) : List Char) : Multiset Char) := by
      rw [Multiset.coe_add]
      exact congrArg _ (List.take_append_drop _ _).symm
    have e2 : ((g2 : Multiset Char)) =
        ((g2.take (d1 % (min g1.length g2.length + 1)) : List Char) : Multiset Char)
          + ((g2.drop (d1 % (min g1.length g2.length + 1)) : List Char) : Multiset Char) := by
      rw [Multiset.coe_add]
      exact congrArg _ (List.take_append_drop _ _).symm
    rw [e1, e2]
    abel
  · have hs : d1 % (min g1.length g2.length + 1) ≤ min g1.length g2.length := by
      have := Nat.mod_lt d1 (y := min g1.length g2.length + 1) (by omega)
      omega
    simp only [List.length_append, List.length_take, List.length_drop]
    omega

/-- C4 (fitness invalidation is performed by the engine around `mate_text`):
for every pair of genomes with previously evaluated fitness, after the
engine's crossover step both resulting genomes' fitness is stale (`none`). -/
theorem engine_mate_invalidates_fitness (g1 g2 : Message) (d1 d2 : Nat)
    (f1 f2 : Nat) (_h1 : g1.fitness = some f1) (_h2 : g2.fitness = some f2) :
    (engine_mate g1 g2 d1 d2).1.fitness = none
    ∧ (engine_mate g1 g2 d1 d2).2.fitness = none :=
  ⟨rfl, rfl⟩

/-- Witness for C4 at two evaluated genomes. -/
theorem engine_mate_invalidates_fitness_witness :
    (engine_mate ⟨['A'], some 3⟩ ⟨['B', 'C'], some 5⟩ 0 1).1.fitness = none
    ∧ (engine_mate ⟨['A'], some 3⟩ ⟨['B', 'C'], some 5⟩ 0 1).2.fitness = none :=
  engine_mate_invalidates_fitness ⟨['A'], some 3⟩ ⟨['B', 'C'], some 5⟩ 0 1 3 5 rfl rfl

theorem choiceValid_mem (draw : Nat) : choiceValid draw ∈ VALID_CHARS :=
  List.get_mem _ _ _

theorem mem_insertAt {c x : Char} {l : List Char} {i : Nat}
    (h : c ∈ insertAt l i x) : c = x ∨ c ∈ l := by
  unfold insertAt at h
  rcases List.mem_append.mp h with h1 | h1
  · exact Or.inr (List.take_subset _ _ h1)
  · rcases List.mem_cons.mp h1 with h2 | h2
    · exact Or.inl h2
    · exact Or.inr (List.drop_subset _ _ h2)

theorem mem_deleteAt {c : Char} {l : List Char} {i : Nat}
    (h : c ∈ deleteAt l i) : c ∈ l := by
  unfold deleteAt at h
  rcases List.mem_append.mp h with h1 | h1
  · exact List.take_subset _ _ h1
  · exact List.drop_subset _ _ h1

theorem step_ins_valid {msg out : List Char} {d : MutDraws}
    (h : ∀ c ∈ msg, c ∈ VALID_CHARS) (hk : step_ins msg d = Except.ok out) :
    ∀ c ∈ out, c ∈ VALID_CHARS := by
  unfold step_ins at hk
  split at hk
  · split at hk
    · exact absurd hk (by simp)
    · simp only [Except.ok.injEq] at hk
      subst hk
      intro c hc
      rcases mem_insertAt hc with h1 | h1
      · subst h1; exact choiceValid_mem _
      · exact h c h1
  · simp only [Except.ok.injEq] at hk
    subst hk
    exact h

theorem step_del_valid {msg out : List Char} {d : MutDraws}
    (h : ∀ c ∈ msg, c ∈ VALID_CHARS) (hk : step_del msg d = Except.ok out) :
    ∀ c ∈ out, c ∈ VALID_CHARS := by
  unfold step_del at hk
  split at hk
  · split at hk
    · exact absurd hk (by simp)
    · simp only [Except.ok.injEq] at hk
      subst hk
      exact fun c hc => h c (mem_deleteAt hc)
  · simp only [Except.ok.injEq] at hk
    subst hk
    exact h

theorem step_sub_valid {msg out : List Char} {d : MutDraws}
    (h : ∀ c ∈ msg, c ∈ VALID_CHARS) (hk : step_sub msg d = Except.ok out) :
    ∀ c ∈ out, c ∈ VALID_CHARS := by
  unfold step_sub at hk
  split at hk
  · split at hk
    · exact absurd hk (by simp)
    · simp only [Except.ok.injEq] at hk
      subst hk
      intro c hc
      rcases mem_insertAt hc with h1 | h1
      · subst h1; exact choiceValid_mem _
      · exact h c (mem_deleteAt h1)
  · simp only [Except.ok.injEq] at hk
    subst hk
    exact h

/-- C6: if every symbol of the input genome belongs to `VALID_CHARS`, then
after `mutate_text` returns a genome every symbol of the result still belongs
to `VALID_CHARS`, whichever of the three sub-operators fire (the draws `d`
range over all combinations). -/
theorem mutate_text_preserves_alphabet (msg out : List Char) (d : MutDraws)
    (h : ∀ c ∈ msg, c ∈ VALID_CHARS) (hk : mutate_text msg d = Except.ok out) :
    ∀ c ∈ out, c ∈ VALID_CHARS := by
  unfold mutate_text at hk
  split at hk
  · exact absurd hk (by simp)
  · rename_i m1 h1
    split at hk
    · exact absurd hk (by simp)
    · rename_i m2 h2
      exact step_sub_valid (step_del_valid (step_ins_valid h h1) h2) hk

/-- Witness for C6: a concrete alphabet-valid genome and draw vector in which
all three sub-operators fire. -/
theorem mutate_text_preserves_alphabet_witness : 'B' ∈ VALID_CHARS :=
  mutate_text_preserves_alphabet ['A', 'B'] ['A', 'B'] ⟨true, 0, 2, true, 0, true, 0, 0⟩
    (by decide) rfl 'B' (by decide)

theorem find_illegal_spec (goal : List Char) (c : Char)
    (h : find_illegal goal = some c) : c ∈ goal ∧ c ∉ VALID_CHARS := by
  induction goal with
  | nil => exact absurd h (by simp [find_illegal])
  | cons a rest ih =>
    unfold find_illegal at h
    split at h
    · rcases ih h with ⟨h1, h2⟩
      exact ⟨List.mem_cons_of_mem _ h1, h2⟩
    · simp only [Option.some.injEq] at h
      subst h
      exact ⟨List.mem_cons_self _ _, by assumption⟩

theorem find_illegal_none (goal : List Char)
    (h : find_illegal goal = none) : ∀ c ∈ goal, c ∈ VALID_CHARS := by
  induction goal with
  | nil => intro c hc; exact absurd hc (List.not_mem_nil c)
  | cons a rest ih =>
    unfold find_illegal at h
    split at h
    · intro c hc
      rcases List.mem_cons.mp hc with h1 | h1
      · subst h1; assumption
      · exact ih h c h1
    · exact absurd h (by simp)

/-- C8: for every goal containing a character outside `VALID_CHARS`, the
`__main__` boundary raises `ValueError` identifying an illegal character of
the goal before evolution starts, and `evolve_string` is never entered. -/
theorem main_rejects_illegal_goal (goal : List Char) (c : Char)
    (hc : c ∈ goal) (hbad : c ∉ VALID_CHARS) :
    run_main goal = Except.error ((find_illegal goal).getD 'A')
    ∧ (find_illegal goal).getD 'A' ∈ goal
    ∧ (find_illegal goal).getD 'A' ∉ VALID_CHARS
    ∧ run_main goal ≠ Except.ok () := by
  cases hfi : find_illegal goal with
  | none => exact absurd (find_illegal_none goal hfi c hc) hbad
  | some b =>
    have hb := find_illegal_spec goal b hfi
    refine ⟨?_, ?_, ?_, ?_⟩
    · simp [run_main, hfi]
    · simpa [hfi] using hb.1
    · simpa [hfi] using hb.2
    · simp [run_main, hfi]

/-- Witness for C8 at the goal "a" (lowercase, outside the alphabet). -/
theorem main_rejects_illegal_goal_witness :
    run_main ['a'] = Except.error ((find_illegal ['a']).getD 'A')
    ∧ (find_illegal ['a']).getD 'A' ∈ ['a']
    ∧ (find_illegal ['a']).getD 'A' ∉ VALID_CHARS
    ∧ run_main ['a'] ≠ Except.ok () :=
  main_rejects_illegal_goal ['a'] 'a' (by decide) (by decide)

/-- C10: `Message("")` with the empty string as `starting_string` behaves
exactly like `Message()` with no starting string (the empty string is falsy),
so the genome is not empty: it is random valid characters with length between
the default `min_length = 4` and `max_length = 30`. -/
theorem message_init_empty_string (len_draw : Nat) (char_draws : Nat → Nat) :
    message_init (some []) 4 30 len_draw char_draws
        = message_init none 4 30 len_draw char_draws
    ∧ message_init (some []) 4 30 len_draw char_draws ≠ []
    ∧ 4 ≤ (message_init (some []) 4 30 len_draw char_draws).length
    ∧ (message_init (some []) 4 30 len_draw char_draws).length ≤ 30
    ∧ ∀ c ∈ message_init (some []) 4 30 len_draw char_draws, c ∈ VALID_CHARS := by
  have hlen : (message_init (some []) 4 30 len_draw char_draws).length
      = 4 + len_draw % 27 := by
    simp [message_init, truthyStr]
  have hmod : len_draw % 27 < 27 := Nat.mod_lt _ (by omega)
  refine ⟨rfl, ?_, by omega, by omega, ?_⟩
  · intro hnil
    rw [hnil] at hlen
    simp only [List.length_nil] at hlen
    omega
  · intro c hc
    have hc2 : ∃ i, i < 4 + len_draw % 27 ∧ choiceValid (char_draws i) = c := by
      simpa [message_init, truthyStr] using hc
    rcases hc2 with ⟨i, _, hi⟩
    exact hi ▸ choiceValid_mem _
